import Mathlib

/-!
Verification development for the MediClaim document retrieval-and-adjudication
engine.  Money amounts are modelled as exact rationals (`ℚ`).  The backend core
(coverage adjudication engine, chunker, vector index) is not present in the
repository snapshot — only its frontend consumers, documentation and test
descriptions are — so those components are modelled from the specification
text, as marked in their doc comments.  The frontend components
(`CoverageAnalysis` in the workflow UI and in the chat client) are embedded
from their TypeScript/JSX sources.
-/

/-- Modelled from the spec: §3 `PolicyTerms` — the adjudication engine itself is
absent from the repository sources, only its spec and frontend consumers exist.
`{deductible, copay, coinsurance_rate, out_of_pocket_max, annual_deductible_remaining}`. -/
structure PolicyTerms where
  deductible : ℚ
  copay : Option ℚ
  coinsurance_rate : Option ℚ
  out_of_pocket_max : ℚ
  annual_deductible_remaining : ℚ
deriving Repr, DecidableEq

/-- Modelled from the spec: §3 `BillLineItem`
`{service_code, description, billed_amount, quantity}`. -/
structure BillLineItem where
  service_code : String
  description : String
  billed_amount : ℚ
  quantity : Nat
deriving Repr, DecidableEq

/-- Modelled from the spec: §3 `CoverageResult`
`{total_billed, deductible_applied, insurance_covers, out_of_pocket, coverage_percentage}`. -/
structure CoverageResult where
  total_billed : ℚ
  deductible_applied : ℚ
  insurance_covers : ℚ
  out_of_pocket : ℚ
  coverage_percentage : ℚ
deriving Repr, DecidableEq

/-- Modelled from the spec: §7 error taxonomy, restricted to the adjudication
path (`InvalidLineItem`: negative or malformed billing input). -/
inductive AdjudicationError where
  | InvalidLineItem
deriving Repr, DecidableEq

/-- Modelled from the spec: §4.5 step 1 — sum `billed_amount` across all line items. -/
def totalBilled (line_items : List BillLineItem) : ℚ :=
  (line_items.map (fun li => li.billed_amount)).sum

/-- Modelled from the spec: §4.5 step 2 —
`deductible_applied = min(total_billed, policy.annual_deductible_remaining)`. -/
def deductibleApplied (line_items : List BillLineItem) (policy : PolicyTerms) : ℚ :=
  min (totalBilled line_items) policy.annual_deductible_remaining

/-- Modelled from the spec: §4.5 step 3 — coinsurance/copay applied to the
remainder after the deductible, before the out-of-pocket-max cap. -/
def insuranceCoversPreCap (line_items : List BillLineItem) (policy : PolicyTerms) : ℚ :=
  let remaining := totalBilled line_items - deductibleApplied line_items policy
  match policy.coinsurance_rate with
  | some r => remaining * r
  | none =>
    match policy.copay with
    | some c => max 0 (remaining - c)
    | none => remaining

/-- Modelled from the spec: §4.5 step 4 — provisional
`out_of_pocket = total_billed - insurance_covers`. -/
def outOfPocketPreCap (line_items : List BillLineItem) (policy : PolicyTerms) : ℚ :=
  totalBilled line_items - insuranceCoversPreCap line_items policy

/-- Modelled from the spec: §4.5 step 5 — when the provisional out-of-pocket
exceeds `out_of_pocket_max`, `insurance_covers` grows by the difference. -/
def insuranceCoversFinal (line_items : List BillLineItem) (policy : PolicyTerms) : ℚ :=
  if outOfPocketPreCap line_items policy > policy.out_of_pocket_max then
    insuranceCoversPreCap line_items policy +
      (outOfPocketPreCap line_items policy - policy.out_of_pocket_max)
  else
    insuranceCoversPreCap line_items policy

/-- Modelled from the spec: §4.5 step 5 — out-of-pocket capped at
`out_of_pocket_max`. -/
def outOfPocketFinal (line_items : List BillLineItem) (policy : PolicyTerms) : ℚ :=
  if outOfPocketPreCap line_items policy > policy.out_of_pocket_max then
    policy.out_of_pocket_max
  else
    outOfPocketPreCap line_items policy

/-- Modelled from the spec: §4.5 step 6 —
`coverage_percentage = insurance_covers / total_billed * 100`, defined `0` when
`total_billed == 0`. -/
def coveragePercentage (line_items : List BillLineItem) (policy : PolicyTerms) : ℚ :=
  if totalBilled line_items = 0 then 0
  else insuranceCoversFinal line_items policy / totalBilled line_items * 100

/-- Modelled from the spec: §4.5 `adjudicate(line_items, policy) -> CoverageResult`,
absent from the repository sources.  Negative `billed_amount` is rejected with
`InvalidLineItem` before summation; otherwise the fixed-order steps 1–6 run. -/
def adjudicate (line_items : List BillLineItem) (policy : PolicyTerms) :
    Except AdjudicationError CoverageResult :=
  if line_items.any (fun li => decide (li.billed_amount < 0)) then
    Except.error AdjudicationError.InvalidLineItem
  else
    Except.ok
      { total_billed := totalBilled line_items
        deductible_applied := deductibleApplied line_items policy
        insurance_covers := insuranceCoversFinal line_items policy
        out_of_pocket := outOfPocketFinal line_items policy
        coverage_percentage := coveragePercentage line_items policy }

/-- Claim C1: for every input on which `adjudicate` succeeds, the three buckets of the
returned `CoverageResult` reconcile exactly to the input total:
`deductible_applied + insurance_covers + (out_of_pocket - deductible_applied)
 = total_billed`, and that total is the sum of the input line items. -/
theorem adjudicate_reconciliation (line_items : List BillLineItem)
    (policy : PolicyTerms) (r : CoverageResult)
    (h : adjudicate line_items policy = Except.ok r) :
    r.deductible_applied + r.insurance_covers + (r.out_of_pocket - r.deductible_applied)
      = r.total_billed ∧ r.total_billed = totalBilled line_items := by
  unfold adjudicate at h
  split at h
  · exact absurd h (by simp)
  · have hr : r =
        { total_billed := totalBilled line_items
          deductible_applied := deductibleApplied line_items policy
          insurance_covers := insuranceCoversFinal line_items policy
          out_of_pocket := outOfPocketFinal line_items policy
          coverage_percentage := coveragePercentage line_items policy } := by
      cases h; rfl
    subst hr
    refine ⟨?_, rfl⟩
    simp only [insuranceCoversFinal, outOfPocketFinal, outOfPocketPreCap]
    split <;> ring

/-- Witness for C1: the reconciliation theorem applied to a concrete successful
adjudication (Scenario 1 of §8). -/
theorem adjudicate_reconciliation_witness :
    ∃ r : CoverageResult,
      adjudicate [⟨"SVC1", "procedure", 1000, 1⟩]
        ⟨500, none, some (4/5), 500, 200⟩ = Except.ok r ∧
      r.deductible_applied + r.insurance_covers + (r.out_of_pocket - r.deductible_applied)
        = r.total_billed ∧
      r.total_billed = totalBilled [⟨"SVC1", "procedure", 1000, 1⟩] := by
  have h : adjudicate [⟨"SVC1", "procedure", 1000, 1⟩]
      ⟨500, none, some (4/5), 500, 200⟩ = Except.ok ⟨1000, 200, 640, 360, 64⟩ := by
    simp only [adjudicate, totalBilled, deductibleApplied, insuranceCoversPreCap,
      outOfPocketPreCap, insuranceCoversFinal, outOfPocketFinal, coveragePercentage]
    norm_num
  exact ⟨_, h, adjudicate_reconciliation _ _ _ h⟩

/-- Claim C2: Scenario 1 — `total_billed=1000`, `annual_deductible_remaining=200`,
`coinsurance_rate=0.8`, `out_of_pocket_max=500` yields exactly
`deductible_applied=200`, `insurance_covers=640`, `out_of_pocket=360`,
`coverage_percentage=64`: the deductible step runs before the coinsurance step. -/
theorem adjudicate_scenario1 :
    adjudicate [⟨"SVC1", "procedure", 1000, 1⟩]
        ⟨500, none, some (4/5), 500, 200⟩ =
      Except.ok ⟨1000, 200, 640, 360, 64⟩ := by
  simp only [adjudicate, totalBilled, deductibleApplied, insuranceCoversPreCap,
    outOfPocketPreCap, insuranceCoversFinal, outOfPocketFinal, coveragePercentage]
  norm_num

/-- Claim C3: any line item with a negative `billed_amount` makes `adjudicate` return
`InvalidLineItem`, for every policy, and no `CoverageResult` is produced: the
guard precedes summation and all other arithmetic in the algorithm. -/
theorem adjudicate_rejects_negative (line_items : List BillLineItem)
    (policy : PolicyTerms) (h : ∃ li ∈ line_items, li.billed_amount < 0) :
    adjudicate line_items policy = Except.error AdjudicationError.InvalidLineItem := by
  unfold adjudicate
  rw [if_pos]
  rw [List.any_eq_true]
  obtain ⟨li, hmem, hneg⟩ := h
  exact ⟨li, hmem, by simpa using hneg⟩

/-- Witness for C3: a concrete claim containing a `-50` line item is rejected. -/
theorem adjudicate_rejects_negative_witness :
    (∃ li ∈ [BillLineItem.mk "SVC9" "refund" (-50) 1], li.billed_amount < 0) ∧
    adjudicate [BillLineItem.mk "SVC9" "refund" (-50) 1] ⟨500, none, none, 500, 200⟩
      = Except.error AdjudicationError.InvalidLineItem := by
  have h : ∃ li ∈ [BillLineItem.mk "SVC9" "refund" (-50) 1], li.billed_amount < 0 :=
    ⟨_, List.mem_singleton.mpr rfl, by norm_num⟩
  exact ⟨h, adjudicate_rejects_negative _ _ h⟩

/-- Claim C4: when the line items are valid (non-negative amounts, per the §3
`BillLineItem` invariant) and sum to `0` — the empty sequence included — and the
policy's money fields are non-negative, `adjudicate` succeeds with every field
of the `CoverageResult` equal to `0`: in particular `coverage_percentage = 0`
with no division by zero, and no error is raised. -/
theorem adjudicate_zero_total (line_items : List BillLineItem) (policy : PolicyTerms)
    (hnn : ∀ li ∈ line_items, 0 ≤ li.billed_amount)
    (hzero : totalBilled line_items = 0)
    (hded : 0 ≤ policy.annual_deductible_remaining)
    (hoop : 0 ≤ policy.out_of_pocket_max)
    (hcopay : ∀ c, policy.copay = some c → 0 ≤ c) :
    adjudicate line_items policy = Except.ok ⟨0, 0, 0, 0, 0⟩ := by
  have hany : line_items.any (fun li => decide (li.billed_amount < 0)) = false := by
    rw [List.any_eq_false]
    intro li hmem
    simpa using not_lt.mpr (hnn li hmem)
  have hd : deductibleApplied line_items policy = 0 := by
    rw [deductibleApplied, hzero]
    exact min_eq_left hded
  have hic : insuranceCoversPreCap line_items policy = 0 := by
    unfold insuranceCoversPreCap
    rw [hzero, hd]
    cases hr : policy.coinsurance_rate with
    | some r => simp
    | none =>
      cases hc : policy.copay with
      | some c =>
        have hcn : 0 ≤ c := hcopay c hc
        have hle : (0 : ℚ) - 0 - c ≤ 0 := by linarith
        simp only [max_eq_left hle]
      | none => simp
  have hop : outOfPocketPreCap line_items policy = 0 := by
    rw [outOfPocketPreCap, hzero, hic]; ring
  have hicf : insuranceCoversFinal line_items policy = 0 := by
    rw [insuranceCoversFinal, if_neg, hic]
    rw [hop]
    exact not_lt.mpr hoop
  have hopf : outOfPocketFinal line_items policy = 0 := by
    rw [outOfPocketFinal, if_neg, hop]
    rw [hop]
    exact not_lt.mpr hoop
  have hcp : coveragePercentage line_items policy = 0 := by
    rw [coveragePercentage, if_pos hzero]
  unfold adjudicate
  rw [if_neg (by simp [hany])]
  rw [hzero, hd, hicf, hopf, hcp]

/-- Witness for C4: the empty claim against a concrete policy yields the all-zero
`CoverageResult`. -/
theorem adjudicate_zero_total_witness :
    totalBilled ([] : List BillLineItem) = 0 ∧
    adjudicate ([] : List BillLineItem) ⟨500, some 20, none, 500, 200⟩
      = Except.ok ⟨0, 0, 0, 0, 0⟩ := by
  refine ⟨by simp [totalBilled], ?_⟩
  exact adjudicate_zero_total [] ⟨500, some 20, none, 500, 200⟩
    (by simp) (by simp [totalBilled]) (by norm_num) (by norm_num)
    (fun c hc => by cases hc; norm_num)

/-- Claim C6: on every successful adjudication, if the provisional out-of-pocket
(step 4) exceeds `out_of_pocket_max` the returned `out_of_pocket` is exactly the
cap and `insurance_covers` is the pre-cap amount increased by exactly the
excess; otherwise both are returned unchanged. -/
theorem adjudicate_oop_cap (line_items : List BillLineItem) (policy : PolicyTerms)
    (r : CoverageResult) (h : adjudicate line_items policy = Except.ok r) :
    (outOfPocketPreCap line_items policy > policy.out_of_pocket_max →
      r.out_of_pocket = policy.out_of_pocket_max ∧
      r.insurance_covers = insuranceCoversPreCap line_items policy +
        (outOfPocketPreCap line_items policy - policy.out_of_pocket_max)) ∧
    (¬ outOfPocketPreCap line_items policy > policy.out_of_pocket_max →
      r.out_of_pocket = outOfPocketPreCap line_items policy ∧
      r.insurance_covers = insuranceCoversPreCap line_items policy) := by
  unfold adjudicate at h
  split at h
  · exact absurd h (by simp)
  · have hr : r =
        { total_billed := totalBilled line_items
          deductible_applied := deductibleApplied line_items policy
          insurance_covers := insuranceCoversFinal line_items policy
          out_of_pocket := outOfPocketFinal line_items policy
          coverage_percentage := coveragePercentage line_items policy } := by
      cases h; rfl
    subst hr
    constructor
    · intro hcap
      simp only [insuranceCoversFinal, outOfPocketFinal]
      rw [if_pos hcap, if_pos hcap]
      exact ⟨rfl, rfl⟩
    · intro hcap
      simp only [insuranceCoversFinal, outOfPocketFinal]
      rw [if_neg hcap, if_neg hcap]
      exact ⟨rfl, rfl⟩

/-- Witness for C6: Scenario 2 of §8 — `total_billed=5000`,
`annual_deductible_remaining=1000`, no coinsurance/copay, `out_of_pocket_max=2000`:
the provisional out-of-pocket `1000` is under the cap, so `insurance_covers=4000`
and `out_of_pocket=1000` are returned unchanged. -/
theorem adjudicate_oop_cap_witness :
    ∃ r : CoverageResult,
      adjudicate [⟨"SVC2", "hospital stay", 5000, 1⟩] ⟨1000, none, none, 2000, 1000⟩
        = Except.ok r ∧
      ¬ outOfPocketPreCap [⟨"SVC2", "hospital stay", 5000, 1⟩]
          ⟨1000, none, none, 2000, 1000⟩ > (2000 : ℚ) ∧
      r.out_of_pocket = outOfPocketPreCap [⟨"SVC2", "hospital stay", 5000, 1⟩]
          ⟨1000, none, none, 2000, 1000⟩ ∧
      r.insurance_covers = insuranceCoversPreCap [⟨"SVC2", "hospital stay", 5000, 1⟩]
          ⟨1000, none, none, 2000, 1000⟩ := by
  have h : adjudicate [⟨"SVC2", "hospital stay", 5000, 1⟩] ⟨1000, none, none, 2000, 1000⟩
      = Except.ok ⟨5000, 1000, 4000, 1000, 80⟩ := by
    simp only [adjudicate, totalBilled, deductibleApplied, insuranceCoversPreCap,
      outOfPocketPreCap, insuranceCoversFinal, outOfPocketFinal, coveragePercentage]
    norm_num
  have hnc : ¬ outOfPocketPreCap [⟨"SVC2", "hospital stay", 5000, 1⟩]
      ⟨1000, none, none, 2000, 1000⟩ > (2000 : ℚ) := by
    simp only [outOfPocketPreCap, insuranceCoversPreCap, totalBilled, deductibleApplied]
    norm_num
  exact ⟨_, h, hnc, (adjudicate_oop_cap _ _ _ h).2 hnc⟩


/-- Modelled from the spec: §4.1 Chunker
`chunk(text, chunk_size, overlap) -> sequence<string>` — absent from the
repository sources.  Modelled as the sliding window the §4.1 guarantees
describe: consecutive chunks share exactly `overlap` characters, every
character lands in at least one chunk.  The validity precondition
`overlap < chunk_size` of §4.1 is carried as a hypothesis (invalid
configurations fail with `InvalidConfig` before this runs). -/
def chunk (text : List Char) (chunk_size overlap : Nat) (h : overlap < chunk_size) :
    List (List Char) :=
  if text.length ≤ chunk_size then [text]
  else text.take chunk_size :: chunk (text.drop (chunk_size - overlap)) chunk_size overlap h
termination_by text.length
decreasing_by
  simp only [List.length_drop]
  omega

/-- Modelled from the spec: the unique (non-overlap) span of each chunk of §8
"Chunk coverage" — every chunk but the last contributes its first
`chunk_size - overlap` characters, the final chunk contributes all of them. -/
def uniqueSpans (step : Nat) : List (List Char) → List (List Char)
  | [] => []
  | [c] => [c]
  | c :: c' :: cs => c.take step :: uniqueSpans step (c' :: cs)

theorem chunk_ne_nil (text : List Char) (chunk_size overlap : Nat) (h : overlap < chunk_size) :
    chunk text chunk_size overlap h ≠ [] := by
  rw [chunk]
  split <;> simp

theorem uniqueSpans_cons_of_ne_nil (step : Nat) (c : List Char) (cs : List (List Char))
    (h : cs ≠ []) : uniqueSpans step (c :: cs) = c.take step :: uniqueSpans step cs := by
  cases cs with
  | nil => exact absurd rfl h
  | cons c' cs' => rfl

theorem uniqueSpans_flatten_aux (chunk_size overlap : Nat) (h : overlap < chunk_size) :
    ∀ n (text : List Char), text.length ≤ n →
      (uniqueSpans (chunk_size - overlap) (chunk text chunk_size overlap h)).flatten = text := by
  intro n
  induction n with
  | zero =>
    intro text ht
    have htn : text = [] := List.eq_nil_of_length_eq_zero (Nat.le_zero.mp ht)
    subst htn
    rw [chunk]
    simp [uniqueSpans]
  | succ n ih =>
    intro text ht
    rw [chunk]
    split
    · simp [uniqueSpans]
    · rename_i hlen
      rw [uniqueSpans_cons_of_ne_nil _ _ _ (chunk_ne_nil _ _ _ h)]
      rw [List.flatten_cons]
      rw [ih (text.drop (chunk_size - overlap)) (by simp; omega)]
      rw [List.take_take]
      rw [min_eq_left (Nat.sub_le _ _)]
      exact List.take_append_drop _ _

theorem uniqueSpans_mem (step : Nat) :
    ∀ (l : List (List Char)), ∀ s ∈ uniqueSpans step l, ∃ ch ∈ l, ∀ a ∈ s, a ∈ ch := by
  intro l
  induction l with
  | nil => intro s hs; simp [uniqueSpans] at hs
  | cons c cs ih =>
    intro s hs
    cases cs with
    | nil =>
      simp [uniqueSpans] at hs
      exact ⟨c, by simp, by simp [hs]⟩
    | cons c' cs' =>
      rw [uniqueSpans] at hs
      rcases List.mem_cons.mp hs with h1 | h2
      · exact ⟨c, by simp, fun a ha => List.mem_of_mem_take (h1 ▸ ha)⟩
      · obtain ⟨ch, hch, hsub⟩ := ih s h2
        exact ⟨ch, List.mem_cons_of_mem _ hch, hsub⟩

/-- Claim C7: for every text and every valid configuration `chunk_size > overlap ≥ 0`,
concatenating the chunks' unique (non-overlap) spans reconstructs the original
text exactly, and every character of the input appears in at least one chunk. -/
theorem chunk_coverage (text : List Char) (chunk_size overlap : Nat)
    (h : overlap < chunk_size) :
    (uniqueSpans (chunk_size - overlap) (chunk text chunk_size overlap h)).flatten = text ∧
    ∀ a ∈ text, ∃ ch ∈ chunk text chunk_size overlap h, a ∈ ch := by
  have hj := uniqueSpans_flatten_aux chunk_size overlap h text.length text le_rfl
  refine ⟨hj, fun a ha => ?_⟩
  rw [← hj] at ha
  obtain ⟨s, hs, has⟩ := List.mem_flatten.mp ha
  obtain ⟨ch, hch, hsub⟩ := uniqueSpans_mem _ _ s hs
  exact ⟨ch, hch, hsub a has⟩

/-- Witness for C7: the coverage theorem at text `"abcdef"`, `chunk_size = 4`,
`overlap = 1`. -/
theorem chunk_coverage_witness :
    (uniqueSpans (4 - 1) (chunk "abcdef".toList 4 1 (by norm_num))).flatten
        = "abcdef".toList ∧
    ∀ a ∈ "abcdef".toList, ∃ ch ∈ chunk "abcdef".toList 4 1 (by norm_num), a ∈ ch :=
  chunk_coverage "abcdef".toList 4 1 (by norm_num)

/-- Modelled from the spec: §3 `IndexEntry`, the persisted form of a
`DocumentChunk` inside the Vector Index, keyed by `chunk_id` — the index
implementation is absent from the repository sources. -/
structure IndexEntry where
  chunk_id : String
  source_document_id : String
  text : String
  embedding_vector : List ℚ
deriving Repr, DecidableEq

/-- Modelled from the spec: §4.3 — a single-entry upsert, idempotent by
`chunk_id`; re-upserting the same id replaces the vector/text, a new id is
appended (ties broken by insertion order, so order is preserved). -/
def upsertOne (idx : List IndexEntry) (e : IndexEntry) : List IndexEntry :=
  if idx.any (fun x => x.chunk_id == e.chunk_id) then
    idx.map (fun x => if x.chunk_id == e.chunk_id then e else x)
  else idx ++ [e]

/-- Modelled from the spec: §4.3 `upsert(entries: sequence<IndexEntry>) -> void`,
applied entry by entry in sequence order. -/
def upsert (idx : List IndexEntry) (entries : List IndexEntry) : List IndexEntry :=
  entries.foldl upsertOne idx

/-- Modelled from the spec: §4.3 inner-product similarity between a query
vector and a stored embedding vector. -/
def innerProduct (v w : List ℚ) : ℚ :=
  (List.zipWith (fun a b => a * b) v w).sum

/-- Modelled from the spec: §3 `RetrievalFilter` `{document_ids | null}`;
`null` means search all. -/
def matchesFilter (filter : Option (List String)) (e : IndexEntry) : Bool :=
  match filter with
  | none => true
  | some ids => ids.contains e.source_document_id

/-- Modelled from the spec: §4.3 `search(query_vector, k, filter)` — filtered
entries scored by similarity, ordered descending by a stable sort (ties broken
by insertion order), truncated to at most `k` results. -/
def search (idx : List IndexEntry) (query_vector : List ℚ) (k : Nat)
    (filter : Option (List String)) : List (IndexEntry × ℚ) :=
  (((idx.filter (matchesFilter filter)).map
      (fun e => (e, innerProduct query_vector e.embedding_vector))).mergeSort
    (fun a b => decide (b.2 ≤ a.2))).take k

/-- The Vector Index invariant: entries are keyed by `chunk_id` (§6), so no two
entries share a `chunk_id`. -/
def wfIndex (idx : List IndexEntry) : Prop :=
  (idx.map (fun e => e.chunk_id)).Nodup

theorem filter_singleton_of_nodup_keys (k : String) :
    ∀ (idx : List IndexEntry), wfIndex idx →
      idx.any (fun x => x.chunk_id == k) = true →
      ∃ x, idx.filter (fun x => x.chunk_id == k) = [x] ∧ x.chunk_id = k := by
  intro idx
  induction idx with
  | nil => intro _ hany; simp at hany
  | cons x xs ih =>
    intro hwf hany
    have hwf' : wfIndex xs := by
      have := hwf
      simp [wfIndex] at this ⊢
      exact this.2
    have hx_notin : x.chunk_id ∉ xs.map (fun e => e.chunk_id) := by
      have := hwf
      simp [wfIndex] at this
      intro hmem
      obtain ⟨y, hy, hyk⟩ := List.mem_map.mp hmem
      exact (this.1 y hy) hyk
    by_cases hk : x.chunk_id = k
    · refine ⟨x, ?_, hk⟩
      rw [List.filter_cons_of_pos (by simpa using hk)]
      have hrest : xs.filter (fun y => y.chunk_id == k) = [] := by
        rw [List.filter_eq_nil_iff]
        intro y hy hyk
        apply hx_notin
        rw [hk]
        have : y.chunk_id = k := by simpa using hyk
        rw [← this]
        exact List.mem_map.mpr ⟨y, hy, rfl⟩
      rw [hrest]
    · have hany' : xs.any (fun y => y.chunk_id == k) = true := by
        simp at hany
        rcases hany with h1 | h2
        · exact absurd h1 hk
        · simpa using h2
      obtain ⟨y, hy, hyk⟩ := ih hwf' hany'
      refine ⟨y, ?_, hyk⟩
      rw [List.filter_cons_of_neg (by simpa using hk)]
      exact hy

theorem upsertOne_filter (idx : List IndexEntry) (e : IndexEntry) (hwf : wfIndex idx) :
    (upsertOne idx e).filter (fun x => x.chunk_id == e.chunk_id) = [e] := by
  unfold upsertOne
  split
  · rename_i hany
    rw [List.filter_map]
    have hcong : idx.filter
        ((fun x => x.chunk_id == e.chunk_id) ∘
          (fun x => if x.chunk_id == e.chunk_id then e else x))
        = idx.filter (fun x => x.chunk_id == e.chunk_id) := by
      apply List.filter_congr
      intro x _
      by_cases hx : x.chunk_id = e.chunk_id
      · simp [hx]
      · simp [hx]
    rw [hcong]
    obtain ⟨x, hx, hxk⟩ := filter_singleton_of_nodup_keys e.chunk_id idx hwf hany
    rw [hx]
    simp [hxk]
  · rename_i hany
    rw [List.filter_append]
    have h1 : idx.filter (fun x => x.chunk_id == e.chunk_id) = [] := by
      rw [List.filter_eq_nil_iff]
      intro x hx
      simp only [Bool.not_eq_true] at hany
      have := List.any_eq_false.mp hany
      simpa using this x hx
    rw [h1]
    simp

theorem upsertOne_wf (idx : List IndexEntry) (e : IndexEntry) (hwf : wfIndex idx) :
    wfIndex (upsertOne idx e) := by
  unfold upsertOne wfIndex
  split
  · rw [List.map_map]
    have : idx.map ((fun e => e.chunk_id) ∘
        (fun x => if x.chunk_id == e.chunk_id then e else x)) =
        idx.map (fun e => e.chunk_id) := by
      apply List.map_congr_left
      intro x _
      by_cases hx : x.chunk_id = e.chunk_id
      · simp [hx]
      · simp [hx]
    rw [this]
    exact hwf
  · rename_i hany
    rw [List.map_append]
    rw [List.nodup_append]
    refine ⟨hwf, List.nodup_singleton _, ?_⟩
    simp only [List.map_cons, List.map_nil]
    rw [List.disjoint_singleton]
    intro hmem
    obtain ⟨y, hy, hyk⟩ := List.mem_map.mp hmem
    simp only [Bool.not_eq_true] at hany
    have := List.any_eq_false.mp hany
    have h2 : ¬ y.chunk_id = e.chunk_id := by simpa using this y hy
    exact h2 hyk

theorem countP_key_le_one (idx : List IndexEntry) (k : String) (hwf : wfIndex idx) :
    idx.countP (fun x => x.chunk_id == k) ≤ 1 := by
  rw [List.countP_eq_length_filter]
  by_cases hany : idx.any (fun x => x.chunk_id == k) = true
  · obtain ⟨x, hx, _⟩ := filter_singleton_of_nodup_keys k idx hwf hany
    rw [hx]
    simp
  · have : idx.filter (fun x => x.chunk_id == k) = [] := by
      rw [List.filter_eq_nil_iff]
      intro x hxm
      simp only [Bool.not_eq_true] at hany
      have := List.any_eq_false.mp hany
      simpa using this x hxm
    rw [this]
    simp

theorem search_no_dup (idx : List IndexEntry) (k0 : String) (hwf : wfIndex idx)
    (query_vector : List ℚ) (k : Nat) (filter : Option (List String)) :
    ((search idx query_vector k filter).filter
      (fun p => p.1.chunk_id == k0)).length ≤ 1 := by
  rw [← List.countP_eq_length_filter]
  unfold search
  calc ((((idx.filter (matchesFilter filter)).map
          (fun e => (e, innerProduct query_vector e.embedding_vector))).mergeSort
          (fun a b => decide (b.2 ≤ a.2))).take k).countP (fun p => p.1.chunk_id == k0)
      ≤ (((idx.filter (matchesFilter filter)).map
          (fun e => (e, innerProduct query_vector e.embedding_vector))).mergeSort
          (fun a b => decide (b.2 ≤ a.2))).countP (fun p => p.1.chunk_id == k0) :=
        (List.take_sublist _ _).countP_le _
    _ = ((idx.filter (matchesFilter filter)).map
          (fun e => (e, innerProduct query_vector e.embedding_vector))).countP
          (fun p => p.1.chunk_id == k0) :=
        (List.mergeSort_perm _ _).countP_eq _
    _ = (idx.filter (matchesFilter filter)).countP (fun x => x.chunk_id == k0) := by
        rw [List.countP_map]; rfl
    _ ≤ idx.countP (fun x => x.chunk_id == k0) :=
        (List.filter_sublist _).countP_le _
    _ ≤ 1 := countP_key_le_one idx k0 hwf

/-- Claim C8: upserting two entries with the same `chunk_id` in sequence into a
well-keyed index leaves exactly one entry for that id, holding the latest text
and vector; the index stays well-keyed, and no `search` ever returns two
results for that id. -/
theorem upsert_twice_latest (idx : List IndexEntry) (e1 e2 : IndexEntry)
    (_hkey : e1.chunk_id = e2.chunk_id) (hwf : wfIndex idx) :
    (upsert idx [e1, e2]).filter (fun x => x.chunk_id == e2.chunk_id) = [e2] ∧
    wfIndex (upsert idx [e1, e2]) ∧
    ∀ query_vector k filter,
      ((search (upsert idx [e1, e2]) query_vector k filter).filter
        (fun p => p.1.chunk_id == e2.chunk_id)).length ≤ 1 := by
  have hstep : upsert idx [e1, e2] = upsertOne (upsertOne idx e1) e2 := rfl
  rw [hstep]
  have hwf1 : wfIndex (upsertOne idx e1) := upsertOne_wf idx e1 hwf
  have hwf2 : wfIndex (upsertOne (upsertOne idx e1) e2) := upsertOne_wf _ e2 hwf1
  refine ⟨upsertOne_filter _ e2 hwf1, hwf2, ?_⟩
  intro query_vector k filter
  exact search_no_dup _ e2.chunk_id hwf2 query_vector k filter

/-- Witness for C8: re-upserting `chunk_id = "c1"` with new text into the empty
index leaves the single latest entry, and a concrete search returns it at most
once. -/
theorem upsert_twice_latest_witness :
    wfIndex [] ∧
    (upsert [] [⟨"c1", "docA", "old text", [1, 0]⟩, ⟨"c1", "docA", "new text", [0, 1]⟩]).filter
      (fun x => x.chunk_id == "c1") = [⟨"c1", "docA", "new text", [0, 1]⟩] ∧
    ((search (upsert [] [⟨"c1", "docA", "old text", [1, 0]⟩, ⟨"c1", "docA", "new text", [0, 1]⟩])
        [1, 1] 5 none).filter (fun p => p.1.chunk_id == "c1")).length ≤ 1 := by
  have hwf : wfIndex ([] : List IndexEntry) := List.nodup_nil
  have h := upsert_twice_latest [] ⟨"c1", "docA", "old text", [1, 0]⟩
    ⟨"c1", "docA", "new text", [0, 1]⟩ rfl hwf
  exact ⟨hwf, h.1, h.2.2 [1, 1] 5 none⟩

/-- Field names of the coverage record returned to the workflow frontend,
embedded from the `CoverageAnalysis` interface declaration in
`medclaim-ai/frontend/src/App.tsx` (lines 172–178). -/
def coverageAnalysisFieldNames : List String :=
  ["total_cost", "deductible_applied", "insurance_covers", "out_of_pocket",
    "coverage_percentage"]

/-- The field names §3 of the spec prescribes for `CoverageResult`, written
from the spec's words as the refinement comparison target. -/
def specCoverageResultFieldNames : List String :=
  ["total_billed", "deductible_applied", "insurance_covers", "out_of_pocket",
    "coverage_percentage"]

/-- Counterexample for C5: the coverage record the external interface actually
returns names its total field `total_cost`, not `total_billed`, so its field
names are not those §3 prescribes. -/
theorem coverageAnalysis_total_field_mismatch :
    "total_billed" ∉ coverageAnalysisFieldNames ∧
    coverageAnalysisFieldNames ≠ specCoverageResultFieldNames := by
  decide

/-- Claim C5 amended: the returned coverage record carries the §3 field names
`deductible_applied`, `insurance_covers`, `out_of_pocket`,
`coverage_percentage`, but its total field is named `total_cost`, not
`total_billed`. -/
theorem coverageAnalysis_field_names :
    coverageAnalysisFieldNames =
      "total_cost" :: specCoverageResultFieldNames.tail ∧
    "total_cost" ∈ coverageAnalysisFieldNames ∧
    "total_billed" ∉ coverageAnalysisFieldNames := by
  decide

/-- The coverage value consumed by the workflow frontend, embedded from the
`CoverageAnalysis` TypeScript interface in `medclaim-ai/frontend/src/App.tsx`;
numeric fields as exact rationals. -/
structure CoverageAnalysis where
  total_cost : ℚ
  deductible_applied : ℚ
  insurance_covers : ℚ
  out_of_pocket : ℚ
  coverage_percentage : ℚ
deriving Repr, DecidableEq

/-- Rendering outcomes of the workflow `CoverageAnalysis` component, embedded
from `src/unnamed/part_010`: the loading spinner, the error panel, the
ready-to-calculate panel, or the results panel.  `resultView` carries the
displayed numbers: the four summary cards, the coverage percentage, and the
three "Your Responsibility" lines (deductible, co-pay, total out-of-pocket). -/
inductive CoverageView where
  | loadingView
  | errorView (msg : String)
  | readyView
  | resultView (totalCostCard deductibleCard insuranceCard outOfPocketCard
      coveragePct respDeductible respCopay respTotal : ℚ)
deriving Repr, DecidableEq

/-- The workflow `CoverageAnalysis` component render function, embedded from
`src/unnamed/part_010` lines 44–207: loading branch, then error branch, then
the no-analysis branch, then the results panel whose "Co-pay" line is
`out_of_pocket - deductible_applied` (line 201), with no clamping. -/
def renderCoverageAnalysis (loading : Bool) (error : Option String)
    (coverageAnalysis : Option CoverageAnalysis) : CoverageView :=
  if loading then CoverageView.loadingView
  else
    match error with
    | some e => CoverageView.errorView e
    | none =>
      match coverageAnalysis with
      | none => CoverageView.readyView
      | some ca =>
        CoverageView.resultView ca.total_cost ca.deductible_applied
          ca.insurance_covers ca.out_of_pocket ca.coverage_percentage
          ca.deductible_applied (ca.out_of_pocket - ca.deductible_applied)
          ca.out_of_pocket

/-- Claim C9: the workflow frontend's "Co-pay" line displays exactly
`out_of_pocket - deductible_applied` with no clamping at zero, so whenever
`out_of_pocket < deductible_applied` a negative co-pay amount is displayed. -/
theorem coverage_copay_line_unclamped (ca : CoverageAnalysis)
    (h : ca.out_of_pocket < ca.deductible_applied) :
    renderCoverageAnalysis false none (some ca) =
      CoverageView.resultView ca.total_cost ca.deductible_applied
        ca.insurance_covers ca.out_of_pocket ca.coverage_percentage
        ca.deductible_applied (ca.out_of_pocket - ca.deductible_applied)
        ca.out_of_pocket ∧
    ca.out_of_pocket - ca.deductible_applied < 0 :=
  ⟨rfl, by linarith⟩

/-- Witness for C9: a coverage analysis with `out_of_pocket = 100` and
`deductible_applied = 300` renders a co-pay line of `-200`. -/
theorem coverage_copay_line_unclamped_witness :
    (100 : ℚ) < 300 ∧
    (renderCoverageAnalysis false none (some ⟨1000, 300, 900, 100, 90⟩) =
      CoverageView.resultView 1000 300 900 100 90 300 (100 - 300) 100 ∧
    (100 : ℚ) - 300 < 0) :=
  ⟨by norm_num,
    coverage_copay_line_unclamped ⟨1000, 300, 900, 100, 90⟩ (by norm_num)⟩

/-- A JavaScript field value: either a number or absent (`undefined`), for
embedding the chat client's `analysisData` prop. -/
inductive JSNum where
  | undef
  | num (v : ℚ)
deriving Repr, DecidableEq

/-- JavaScript destructuring default (`const { f = 0 } = obj`): `undefined` is
replaced by the default, a present number passes through. -/
def JSNum.withDefault (x : JSNum) (d : ℚ) : JSNum :=
  match x with
  | JSNum.undef => JSNum.num d
  | JSNum.num v => JSNum.num v

/-- `Intl.NumberFormat(..).format(x)` of the client's `formatCurrency`: calling
it on `undefined` is modelled as failure (`none`); the produced text is
abstracted to the decimal rendering of the rational. -/
def jsFormatCurrency (x : JSNum) : Option String :=
  match x with
  | JSNum.undef => none
  | JSNum.num v => some (toString v)

/-- `x.toFixed(1)`: a number method, so a call on `undefined` is failure. -/
def jsToFixed1 (x : JSNum) : Option String :=
  match x with
  | JSNum.undef => none
  | JSNum.num v => some (toString v)

/-- `x > 0` in JavaScript: `undefined > 0` evaluates to `false`. -/
def JSNum.gtZero (x : JSNum) : Bool :=
  match x with
  | JSNum.undef => false
  | JSNum.num v => decide (0 < v)

/-- The chat client's `analysisData` prop, embedded from
`client/web/MediClaimAi/src/components/chat/CoverageAnalysis.jsx`: each of the
six numeric fields may be missing. -/
structure ClientAnalysisData where
  total_claim : JSNum
  covered_amount : JSNum
  out_of_pocket : JSNum
  coverage_percentage : JSNum
  deductible_applied : JSNum
  copay_applied : JSNum
deriving Repr, DecidableEq

/-- What the chat client's `CoverageAnalysis` component displays: the four
analysis cards, and the conditional breakdown section. -/
structure ClientCoverageView where
  totalClaimText : String
  coveredAmountText : String
  outOfPocketText : String
  coveragePercentageText : String
  showBreakdown : Bool
  deductibleLine : Option String
  copayLine : Option String
  finalCoverageText : String
deriving Repr, DecidableEq

/-- The chat client's `CoverageAnalysis` component, embedded from
`client/web/MediClaimAi/src/components/chat/CoverageAnalysis.jsx`:
`if (!analysisData) return null` (line 7), destructuring with `= 0` defaults
(lines 9–16), `formatCurrency` on the card values, `toFixed(1)` on the
percentage (line 50), and the breakdown section shown when
`deductible_applied > 0 || copay_applied > 0` (line 91).  A number-method call
on an undefined value would be a TypeError, modelled as `Except.error`. -/
def renderClientCoverage (analysisData : Option ClientAnalysisData) :
    Except String (Option ClientCoverageView) :=
  match analysisData with
  | none => Except.ok none
  | some d =>
    let total_claim := d.total_claim.withDefault 0
    let covered_amount := d.covered_amount.withDefault 0
    let out_of_pocket := d.out_of_pocket.withDefault 0
    let coverage_percentage := d.coverage_percentage.withDefault 0
    let deductible_applied := d.deductible_applied.withDefault 0
    let copay_applied := d.copay_applied.withDefault 0
    match jsFormatCurrency total_claim, jsFormatCurrency covered_amount,
        jsFormatCurrency out_of_pocket, jsToFixed1 coverage_percentage,
        jsFormatCurrency covered_amount with
    | some totalText, some coveredText, some oopText, some pctText, some finalText =>
      Except.ok (some
        { totalClaimText := totalText
          coveredAmountText := coveredText
          outOfPocketText := oopText
          coveragePercentageText := pctText ++ "%"
          showBreakdown := deductible_applied.gtZero || copay_applied.gtZero
          deductibleLine :=
            if deductible_applied.gtZero then jsFormatCurrency deductible_applied
            else none
          copayLine :=
            if copay_applied.gtZero then jsFormatCurrency copay_applied
            else none
          finalCoverageText := finalText })
    | _, _, _, _, _ => Except.error "TypeError"

/-- Claim C10: the chat client's coverage renderer is total — `null` or
`undefined` `analysisData` renders nothing, every `analysisData` object renders
successfully because each missing numeric field defaults to `0` before
`formatCurrency`/`toFixed` runs, and the all-missing object displays zeros with
the breakdown section hidden. -/
theorem renderClientCoverage_total :
    renderClientCoverage none = Except.ok none ∧
    (∀ d : ClientAnalysisData, ∃ v : ClientCoverageView,
      renderClientCoverage (some d) = Except.ok (some v)) ∧
    renderClientCoverage
        (some ⟨JSNum.undef, JSNum.undef, JSNum.undef, JSNum.undef,
          JSNum.undef, JSNum.undef⟩) =
      Except.ok (some ⟨toString (0 : ℚ), toString (0 : ℚ), toString (0 : ℚ),
        toString (0 : ℚ) ++ "%", false, none, none, toString (0 : ℚ)⟩) := by
  refine ⟨rfl, ?_, rfl⟩
  intro d
  obtain ⟨f1, f2, f3, f4, f5, f6⟩ := d
  cases f1 <;> cases f2 <;> cases f3 <;> cases f4 <;> exact ⟨_, rfl⟩
